import Mathlib

/-!
Shallow embedding of the dial-orchestration core of `component/dialer`
(Clash.Meta). Connections, resolved addresses and low-level errors are
abstract tokens; the per-address connect primitive (`dialContext` in Go)
is a parameter `dial : Addr → Except Err ConnT`, and the nondeterministic
arrival order of concurrent results is a parameter (a list of results in
completion order, or a list of loop events for the dual-stack racer).
-/

namespace Dialer

/-- A resolved IP address (`netip.Addr` after `Unmap`): it is either an
IPv4 or an IPv6 address, and carries an identity. -/
structure Addr where
  isV4 : Bool
  id : Nat
deriving DecidableEq, Repr

/-- An established connection (`net.Conn`), abstract. -/
structure ConnT where
  id : Nat
deriving DecidableEq, Repr

/-- Errors produced or propagated by the dialer core.
`noIpAddress` is `ErrorNoIpAddress`, `invalidNetworkStack` is
`ErrorInvalidedNetworkStack`, `deadlineExceeded` is `os.ErrDeadlineExceeded`,
`connectFailed e` is `fmt.Errorf("connect failed: %w", e)`,
`joined es` is `errors.Join(es...)`, and `base n` is an abstract
collaborator error (a connect failure, parse failure or DNS failure). -/
inductive Err where
  | noIpAddress
  | invalidNetworkStack
  | deadlineExceeded
  | base (n : Nat)
  | connectFailed (e : Err)
  | joined (es : List Err)

/-- The `(net.Conn, error)` pair returned by a dial strategy: exactly one
of a usable connection or an error. -/
inductive Outcome where
  | conn (c : ConnT)
  | err (e : Err)

/-! ### serialDialContext (dialer.go lines 284-297) -/

/-- The loop body of `serialDialContext`: try each address in order via the
connect primitive, return the first success, otherwise accumulate each
attempt's error (Go `errs = append(errs, err)`) and finally return
`errors.Join(errs...)`. -/
def serialGo (dial : Addr → Except Err ConnT) : List Addr → List Err → Outcome
  | [], errs => .err (.joined errs)
  | ip :: rest, errs =>
    match dial ip with
    | .ok c => .conn c
    | .error e => serialGo dial rest (errs ++ [e])

/-- `serialDialContext`: empty guard (`len(ips) == 0` returns
`ErrorNoIpAddress`), then the serial attempt loop. -/
def serialDialContext (dial : Addr → Except Err ConnT) (ips : List Addr) :
    Outcome :=
  if ips.isEmpty then .err .noIpAddress else serialGo dial ips []

/-- The addresses the `serialDialContext` loop actually passes to the
connect primitive: every address up to and including the first success
(or all of them when every attempt fails). -/
def serialAttempts (dial : Addr → Except Err ConnT) : List Addr → List Addr
  | [] => []
  | ip :: rest =>
    match dial ip with
    | .ok _ => [ip]
    | .error _ => ip :: serialAttempts dial rest

/-- The errors of the failing attempts, in address order. -/
def errsOf (dial : Addr → Except Err ConnT) (ips : List Addr) : List Err :=
  ips.filterMap fun ip =>
    match dial ip with
    | .error e => some e
    | .ok _ => none

/-! ### parallelDialContext (dialer.go lines 245-282)

One goroutine is launched per address and each eventually delivers exactly
one result; the receive loop runs `len(ips)` times. The nondeterministic
completion order is the parameter `arrivals`: the results in the order the
loop receives them (the loop consumes at most `len(ips)` of them). -/

/-- The receive loop of `parallelDialContext`: first success returns
immediately; otherwise errors are appended in completion order; after all
receives, `errors.Join(errs...)` when at least one error was collected,
else the defensive `os.ErrDeadlineExceeded`. -/
def parallelLoop : List (Except Err ConnT) → List Err → Outcome
  | [], errs => if errs.isEmpty then .err .deadlineExceeded else .err (.joined errs)
  | r :: rest, errs =>
    match r with
    | .ok c => .conn c
    | .error e => parallelLoop rest (errs ++ [e])

/-- `parallelDialContext`: empty guard, then the flat-race receive loop
over the first `len(ips)` completions. -/
def parallelDialContext (ips : List Addr) (arrivals : List (Except Err ConnT)) :
    Outcome :=
  if ips.isEmpty then .err .noIpAddress
  else parallelLoop (arrivals.take ips.length) []

/-! ### dualStackDialContext (dialer.go lines 164-243) -/

/-- Modelled from the spec: `resolver.SortationAddr` lives in
`component/resolver`, which is not among the provided sources. Spec §4.4
step 1: "Partition the candidate list into an IPv4 group and an IPv6
group, preserving resolver order within each." -/
def sortationAddr (ips : List Addr) : List Addr × List Addr :=
  (ips.filter fun a => a.isV4, ips.filter fun a => !a.isV4)

/-- Primacy flag of the IPv4 racer task (dialer.go line 197:
`go racer(ipv4s, preferIPVersion != 6)`). -/
def isPrimaryV4 (preferIPVersion : Int) : Bool := preferIPVersion != 6

/-- Primacy flag of the IPv6 racer task (dialer.go line 202:
`go racer(ipv6s, preferIPVersion != 4)`). -/
def isPrimaryV6 (preferIPVersion : Int) : Bool := preferIPVersion != 4

/-- One event observed by the coordinating `select` loop of
`dualStackDialContext`: a fallback-ticker tick, or a task result carrying
its group's primacy flag. The channel closing is the end of the list. -/
inductive DEvent where
  | tick
  | result (r : Except Err ConnT) (isPrimary : Bool)

/-- The coordinating loop of `dualStackDialContext` (lines 210-242), a
fold over the observed events with state (held fallback success,
accumulated errors). A tick returns the held fallback if one is stored; a
primary success returns immediately; a fallback success is held; a primary
error is prepended and a fallback error appended, each wrapped as
`connect failed`; at channel close the held fallback is returned if
present, else `errors.Join(errs...)`. -/
def dualLoop : List DEvent → Option ConnT → List Err → Outcome
  | [], fb, errs =>
    match fb with
    | some c => .conn c
    | none => .err (.joined errs)
  | .tick :: rest, fb, errs =>
    match fb with
    | some c => .conn c
    | none => dualLoop rest fb errs
  | .result (.ok c) true :: _, _, _ => .conn c
  | .result (.ok c) false :: rest, _, errs => dualLoop rest (some c) errs
  | .result (.error e) true :: rest, fb, errs =>
      dualLoop rest fb (.connectFailed e :: errs)
  | .result (.error e) false :: rest, fb, errs =>
      dualLoop rest fb (errs ++ [.connectFailed e])

/-- `dualStackDialContext`: partition the candidates, fail with
`ErrorNoIpAddress` when both groups are empty, else run the coordinating
loop over the observed events. -/
def dualStackDialContext (ips : List Addr) (events : List DEvent) : Outcome :=
  if ((sortationAddr ips).1.isEmpty && (sortationAddr ips).2.isEmpty)
  then .err .noIpAddress
  else dualLoop events none []

/-- The wrapped errors contributed by primary-group results, in arrival
order. -/
def primErrs (events : List DEvent) : List Err :=
  events.filterMap fun ev =>
    match ev with
    | .result (.error e) true => some (.connectFailed e)
    | _ => none

/-- The wrapped errors contributed by fallback-group results, in arrival
order. -/
def fbErrs (events : List DEvent) : List Err :=
  events.filterMap fun ev =>
    match ev with
    | .result (.error e) false => some (.connectFailed e)
    | _ => none

/-- Whether some primary-group task delivered a success. -/
def hasPrimSuccess (events : List DEvent) : Bool :=
  events.any fun ev =>
    match ev with
    | .result (.ok _) true => true
    | _ => false

/-- Whether some fallback-group task delivered a success. -/
def hasFbSuccess (events : List DEvent) : Bool :=
  events.any fun ev =>
    match ev with
    | .result (.ok _) false => true
    | _ => false

/-! ### DialContext (dialer.go lines 45-71) and parseAddr (lines 306-353) -/

/-- Whether `sub` occurs as a contiguous run at the head of `l`. -/
def listHeadRun (sub : List Char) (l : List Char) : Bool :=
  match sub, l with
  | [], _ => true
  | _ :: _, [] => false
  | a :: as, b :: bs => a = b && listHeadRun as bs

/-- Whether `sub` occurs contiguously anywhere in `l`. -/
def listContains (sub : List Char) : List Char → Bool
  | [] => sub.isEmpty
  | c :: cs => listHeadRun sub (c :: cs) || listContains sub cs

/-- Go `strings.Contains(s, sub)`. -/
def strContains (s sub : String) : Bool :=
  listContains sub.toList s.toList

/-- The network rewrite of `DialContext` when the policy forces a
single-stack family `n` (lines 48-56): a token containing `"tcp"` becomes
`"tcp"`, every other token becomes `"udp"`, and the family digit is
appended (`fmt.Sprintf("%s%d", network, opt.network)`). -/
def rewriteNetwork (network : String) (n : Int) : String :=
  (if strContains network "tcp" then "tcp" else "udp") ++ toString n

/-- The network token actually used by `DialContext` after the optional
forced-single-stack rewrite. -/
def dialNetworkToken (network : String) (optNetwork : Int) : String :=
  if optNetwork = 4 ∨ optNetwork = 6 then rewriteNetwork network optNetwork
  else network

/-- The three branches of the `switch network` dispatch in `DialContext`
(lines 63-70). -/
inductive Branch where
  | single
  | dual
  | invalid
deriving DecidableEq, Repr

/-- Which branch of the dispatch switch a network token selects. -/
def dispatchBranch (network : String) : Branch :=
  if network = "tcp4" ∨ network = "tcp6" ∨ network = "udp4" ∨ network = "udp6"
  then .single
  else if network = "tcp" ∨ network = "udp" then .dual
  else .invalid

/-- The collaborators `DialContext` drives, abstracted per call:
`parse` is `parseAddr` with the context, destination address and resolver
fixed (its outcome still depends on the network token), and
`single`/`dual` are `actualSingleStackDialContext` /
`actualDualStackDialContext`. -/
structure DialEnv where
  parse : String → Except Err (List Addr × String)
  single : String → List Addr → String → Outcome
  dual : String → List Addr → String → Outcome

/-- `DialContext` (lines 45-71): optional forced-family rewrite, then
`parseAddr`, whose failure is returned as-is, then the dispatch switch;
the default branch returns `ErrorInvalidedNetworkStack`. -/
def DialContext (env : DialEnv) (network : String) (optNetwork : Int) :
    Outcome :=
  let nw := dialNetworkToken network optNetwork
  match env.parse nw with
  | .error e => .err e
  | .ok (ips, port) =>
    match dispatchBranch nw with
    | .single => env.single nw ips port
    | .dual => env.dual nw ips port
    | .invalid => .err .invalidNetworkStack

/-- Whether the token ends in the character `c` (the spec's "token ending
in \"4\"" / "token ending in \"6\""). -/
def endsInChar (s : String) (c : Char) : Bool :=
  s.toList.getLast? = some c

/-- The resolution mode `parseAddr` selects. -/
inductive ResolveMode where
  | v4
  | v6
  | both
deriving DecidableEq, Repr

/-- The `switch network` of `parseAddr` (lines 321-342): exact tokens
`"tcp4"`/`"udp4"` resolve IPv4 only, `"tcp6"`/`"udp6"` IPv6 only, and the
default case resolves both families. -/
def parseAddrMode (network : String) : ResolveMode :=
  if network = "tcp4" ∨ network = "udp4" then .v4
  else if network = "tcp6" ∨ network = "udp6" then .v6
  else .both

/-! ### The policy bundle and functional options (options source file and
applyOptions, dialer.go lines 28-43). The resolver and transport overrides
are abstract handles. -/

/-- The `option` struct: the fully-resolved dial policy bundle. -/
structure option where
  interfaceName : String
  addrReuse : Bool
  routingMark : Int
  network : Int
  prefer : Int
  tfo : Bool
  mpTcp : Bool
  resolver : Option Nat
  netDialer : Option Nat
deriving DecidableEq, Repr

/-- The `Option` functional-option type (`func(opt *option)`), modelled as
a transform of the bundle. Named `DialOption` because `Option` is taken. -/
def DialOption := option → option

/-- `WithInterface`. -/
def WithInterface (name : String) : DialOption :=
  fun opt => { opt with interfaceName := name }

/-- `WithAddrReuse`. -/
def WithAddrReuse (reuse : Bool) : DialOption :=
  fun opt => { opt with addrReuse := reuse }

/-- `WithRoutingMark`. -/
def WithRoutingMark (mark : Int) : DialOption :=
  fun opt => { opt with routingMark := mark }

/-- `WithResolver`. -/
def WithResolver (r : Nat) : DialOption :=
  fun opt => { opt with resolver := some r }

/-- `WithPreferIPv4`. -/
def WithPreferIPv4 : DialOption :=
  fun opt => { opt with prefer := 4 }

/-- `WithPreferIPv6`. -/
def WithPreferIPv6 : DialOption :=
  fun opt => { opt with prefer := 6 }

/-- `WithOnlySingleStack`. -/
def WithOnlySingleStack (isIPv4 : Bool) : DialOption :=
  fun opt => if isIPv4 then { opt with network := 4 } else { opt with network := 6 }

/-- `WithTFO`. -/
def WithTFO (tfo : Bool) : DialOption :=
  fun opt => { opt with tfo := tfo }

/-- `WithMPTCP`. -/
def WithMPTCP (mpTcp : Bool) : DialOption :=
  fun opt => { opt with mpTcp := mpTcp }

/-- `WithNetDialer`. -/
def WithNetDialer (netDialer : Nat) : DialOption :=
  fun opt => { opt with netDialer := some netDialer }

/-- `WithOption`: the bulk option — `*opt = o` overwrites the whole
bundle. -/
def WithOption (o : option) : DialOption := fun _ => o

/-- `applyOptions` (dialer.go lines 28-43): seed the bundle from the
process-wide default interface and routing mark (all other fields are the
Go zero values), apply the process-wide `DefaultOptions` in order, then
the call-site options in order. -/
def applyOptions (defaultInterface : String) (defaultRoutingMark : Int)
    (DefaultOptions : List DialOption) (options : List DialOption) : option :=
  let opt : option :=
    { interfaceName := defaultInterface
      addrReuse := false
      routingMark := defaultRoutingMark
      network := 0
      prefer := 0
      tfo := false
      mpTcp := false
      resolver := none
      netDialer := none }
  let opt := DefaultOptions.foldl (fun o f => f o) opt
  options.foldl (fun o f => f o) opt

/-! ### Helper lemmas -/

theorem serialGo_success (dial : Addr → Except Err ConnT) (l2 : List Addr)
    (a : Addr) (c : ConnT) (ha : dial a = .ok c) :
    ∀ (l1 : List Addr) (errs : List Err), (∀ b ∈ l1, ∃ e, dial b = .error e) →
      serialGo dial (l1 ++ a :: l2) errs = .conn c := by
  intro l1
  induction l1 with
  | nil => intro errs _; simp [serialGo, ha]
  | cons b t ih =>
    intro errs hfail
    obtain ⟨e, he⟩ := hfail b (by simp)
    simp only [List.cons_append, serialGo, he]
    exact ih _ fun x hx => hfail x (by simp [hx])

theorem serialAttempts_success (dial : Addr → Except Err ConnT)
    (l2 : List Addr) (a : Addr) (c : ConnT) (ha : dial a = .ok c) :
    ∀ l1 : List Addr, (∀ b ∈ l1, ∃ e, dial b = .error e) →
      serialAttempts dial (l1 ++ a :: l2) = l1 ++ [a] := by
  intro l1
  induction l1 with
  | nil => intro _; simp [serialAttempts, ha]
  | cons b t ih =>
    intro hfail
    obtain ⟨e, he⟩ := hfail b (by simp)
    simp only [List.cons_append, serialAttempts, he]
    simp [ih fun x hx => hfail x (by simp [hx])]

theorem serialGo_allFail (dial : Addr → Except Err ConnT) :
    ∀ (ips : List Addr) (errs : List Err), (∀ b ∈ ips, ∃ e, dial b = .error e) →
      serialGo dial ips errs = .err (.joined (errs ++ errsOf dial ips)) := by
  intro ips
  induction ips with
  | nil => intro errs _; simp [serialGo, errsOf]
  | cons b t ih =>
    intro errs h
    obtain ⟨e, he⟩ := h b (by simp)
    simp only [serialGo, he, errsOf, List.filterMap_cons]
    rw [ih _ fun x hx => h x (by simp [hx])]
    simp [errsOf]

theorem serialGo_ne_noIp (dial : Addr → Except Err ConnT) :
    ∀ (ips : List Addr) (errs : List Err),
      serialGo dial ips errs ≠ .err .noIpAddress := by
  intro ips
  induction ips with
  | nil =>
    intro errs h
    exact Err.noConfusion (Outcome.err.inj h)
  | cons b t ih =>
    intro errs
    cases hb : dial b with
    | ok c =>
      intro h
      rw [serialGo, hb] at h
      exact Outcome.noConfusion h
    | error e =>
      intro h
      rw [serialGo, hb] at h
      exact ih _ h

theorem parallelLoop_char :
    ∀ (rs : List (Except Err ConnT)) (errs : List Err),
      rs ≠ [] ∨ errs ≠ [] →
      (∃ c, parallelLoop rs errs = .conn c) ∨
        (∃ es, es ≠ [] ∧ parallelLoop rs errs = .err (.joined es)) := by
  intro rs
  induction rs with
  | nil =>
    intro errs h
    rcases h with h | h
    · exact absurd rfl h
    · right
      refine ⟨errs, h, ?_⟩
      have : errs.isEmpty = false := by simpa using h
      simp [parallelLoop, this]
  | cons r rest ih =>
    intro errs _
    cases r with
    | ok c => exact Or.inl ⟨c, rfl⟩
    | error e =>
      have := ih (errs ++ [e]) (Or.inr (by simp))
      simpa [parallelLoop] using this

theorem parallelLoop_ne_noIp :
    ∀ (rs : List (Except Err ConnT)) (errs : List Err),
      parallelLoop rs errs ≠ .err .noIpAddress := by
  intro rs
  induction rs with
  | nil =>
    intro errs h
    rw [parallelLoop] at h
    by_cases he : errs.isEmpty
    · rw [if_pos he] at h
      exact Err.noConfusion (Outcome.err.inj h)
    · rw [if_neg he] at h
      exact Err.noConfusion (Outcome.err.inj h)
  | cons r rest ih =>
    intro errs
    cases r with
    | ok c =>
      intro h
      exact Outcome.noConfusion h
    | error e => exact ih (errs ++ [e])

theorem dualLoop_ne_noIp :
    ∀ (events : List DEvent) (fb : Option ConnT) (errs : List Err),
      dualLoop events fb errs ≠ .err .noIpAddress := by
  intro events
  induction events with
  | nil =>
    intro fb errs h
    cases fb with
    | none => exact Err.noConfusion (Outcome.err.inj h)
    | some c => exact Outcome.noConfusion h
  | cons ev rest ih =>
    intro fb errs
    cases ev with
    | tick =>
      cases fb with
      | none => exact ih none errs
      | some c =>
        intro h
        exact Outcome.noConfusion h
    | result r p =>
      cases r with
      | ok c =>
        cases p with
        | true =>
          intro h
          exact Outcome.noConfusion h
        | false => exact ih (some c) errs
      | error e =>
        cases p with
        | true => exact ih fb (.connectFailed e :: errs)
        | false => exact ih fb (errs ++ [.connectFailed e])

theorem sortationAddr_both_empty_iff (ips : List Addr) :
    (((sortationAddr ips).1.isEmpty && (sortationAddr ips).2.isEmpty) = true) ↔
      ips = [] := by
  cases ips with
  | nil => simp [sortationAddr]
  | cons a t =>
    cases ha : a.isV4 with
    | true => simp [sortationAddr, List.filter_cons, ha]
    | false => simp [sortationAddr, List.filter_cons, ha]

theorem dualLoop_noSuccess :
    ∀ (events : List DEvent) (errs : List Err),
      hasPrimSuccess events = false → hasFbSuccess events = false →
      dualLoop events none errs =
        .err (.joined ((primErrs events).reverse ++ errs ++ fbErrs events)) := by
  intro events
  induction events with
  | nil =>
    intro errs _ _
    simp [dualLoop, primErrs, fbErrs]
  | cons ev rest ih =>
    intro errs hp hf
    cases ev with
    | tick =>
      simp only [hasPrimSuccess, hasFbSuccess, List.any_cons, Bool.or_eq_false_iff]
        at hp hf
      simp only [dualLoop, primErrs, fbErrs, List.filterMap_cons]
      exact ih errs hp.2 hf.2
    | result r p =>
      cases r with
      | ok c =>
        cases p with
        | true => simp [hasPrimSuccess] at hp
        | false => simp [hasFbSuccess] at hf
      | error e =>
        simp only [hasPrimSuccess, hasFbSuccess, List.any_cons,
          Bool.or_eq_false_iff] at hp hf
        cases p with
        | true =>
          simp only [dualLoop, primErrs, fbErrs, List.filterMap_cons]
          rw [ih (Err.connectFailed e :: errs) hp.2 hf.2]
          simp [primErrs, fbErrs, List.append_assoc]
        | false =>
          simp only [dualLoop, primErrs, fbErrs, List.filterMap_cons]
          rw [ih (errs ++ [Err.connectFailed e]) hp.2 hf.2]
          simp [primErrs, fbErrs, List.append_assoc]

theorem dualLoop_fbWins :
    ∀ (events : List DEvent) (fb : Option ConnT) (errs : List Err),
      hasPrimSuccess events = false →
      (hasFbSuccess events = true ∨ fb.isSome = true) →
      ∃ c, dualLoop events fb errs = .conn c ∧
        (DEvent.result (.ok c) false ∈ events ∨ fb = some c) := by
  intro events
  induction events with
  | nil =>
    intro fb errs _ hor
    rcases hor with hfb | hfb
    · simp [hasFbSuccess] at hfb
    · obtain ⟨c, rfl⟩ := Option.isSome_iff_exists.mp hfb
      exact ⟨c, rfl, Or.inr rfl⟩
  | cons ev rest ih =>
    intro fb errs hp hor
    cases ev with
    | tick =>
      cases fb with
      | some c => exact ⟨c, rfl, Or.inr rfl⟩
      | none =>
        have hfb : hasFbSuccess rest = true := by
          rcases hor with hfb | hfb
          · simpa [hasFbSuccess] using hfb
          · simp at hfb
        have hp' : hasPrimSuccess rest = false := by
          simpa [hasPrimSuccess] using hp
        obtain ⟨c, hc, hm⟩ := ih none errs hp' (Or.inl hfb)
        refine ⟨c, hc, ?_⟩
        rcases hm with hm | hm
        · exact Or.inl (List.mem_cons_of_mem _ hm)
        · exact absurd hm (by simp)
    | result r p =>
      cases r with
      | ok c =>
        cases p with
        | true => simp [hasPrimSuccess] at hp
        | false =>
          have hp' : hasPrimSuccess rest = false := by
            simpa [hasPrimSuccess] using hp
          obtain ⟨c', hc', hm⟩ := ih (some c) errs hp' (Or.inr rfl)
          refine ⟨c', hc', Or.inl ?_⟩
          rcases hm with hm | hm
          · exact List.mem_cons_of_mem _ hm
          · rw [Option.some_inj] at hm
            rw [← hm]
            exact List.mem_cons_self _ _
      | error e =>
        have hp' : hasPrimSuccess rest = false := by
          simpa [hasPrimSuccess] using hp
        have hor' : hasFbSuccess rest = true ∨ fb.isSome = true := by
          rcases hor with hfb | hfb
          · exact Or.inl (by simpa [hasFbSuccess] using hfb)
          · exact Or.inr hfb
        cases p with
        | true =>
          obtain ⟨c, hc, hm⟩ := ih fb (.connectFailed e :: errs) hp' hor'
          refine ⟨c, hc, ?_⟩
          rcases hm with hm | hm
          · exact Or.inl (List.mem_cons_of_mem _ hm)
          · exact Or.inr hm
        | false =>
          obtain ⟨c, hc, hm⟩ := ih fb (errs ++ [.connectFailed e]) hp' hor'
          refine ⟨c, hc, ?_⟩
          rcases hm with hm | hm
          · exact Or.inl (List.mem_cons_of_mem _ hm)
          · exact Or.inr hm

theorem sortationAddr_not_bothEmpty (ips : List Addr) (hne : ips ≠ []) :
    ((sortationAddr ips).1.isEmpty && (sortationAddr ips).2.isEmpty) = false := by
  rcases Bool.eq_false_or_eq_true
      ((sortationAddr ips).1.isEmpty && (sortationAddr ips).2.isEmpty) with
    ht | hf
  · exact absurd ((sortationAddr_both_empty_iff ips).mp ht) hne
  · exact hf

theorem dualStackDialContext_eq_loop (ips : List Addr) (events : List DEvent)
    (hne : ips ≠ []) :
    dualStackDialContext ips events = dualLoop events none [] := by
  rw [dualStackDialContext, sortationAddr_not_bothEmpty ips hne]
  rfl

/-! ### Claim theorems -/

/-- Claim C1: for every nonempty address list, `serialDialContext` tries
the addresses strictly in list order via the connect primitive: when the
first success sits at position `|l1|` (all earlier attempts fail), the
returned connection is that success and only the addresses up to it are
attempted; when every attempt fails, the result is the joined error of
every attempt's error in address order. -/
theorem serialDialContext_strict_order (dial : Addr → Except Err ConnT)
    (ips l1 l2 : List Addr) (a : Addr) (c : ConnT) :
    (ips = l1 ++ a :: l2 → (∀ b ∈ l1, ∃ e, dial b = .error e) →
       dial a = .ok c →
       serialDialContext dial ips = .conn c ∧
         serialAttempts dial ips = l1 ++ [a]) ∧
    (ips ≠ [] → (∀ b ∈ ips, ∃ e, dial b = .error e) →
       serialDialContext dial ips = .err (.joined (errsOf dial ips))) := by
  constructor
  · rintro rfl hfail ha
    refine ⟨?_, serialAttempts_success dial l2 a c ha l1 hfail⟩
    have hne : (l1 ++ a :: l2).isEmpty = false := by simp
    rw [serialDialContext, hne]
    · exact serialGo_success dial l2 a c ha l1 [] hfail
  · intro hne hall
    have h1 : ips.isEmpty = false := by simpa using hne
    rw [serialDialContext, h1]
    · simpa using serialGo_allFail dial ips [] hall

/-- Witness for C1 at a concrete input: the first address fails, the
second succeeds; the connection of the second address is returned and
exactly the first two addresses are attempted. -/
theorem serialDialContext_strict_order_witness :
    (serialDialContext
        (fun a => if a.id = 2 then .ok ⟨5⟩ else .error (.base a.id))
        [⟨true, 1⟩, ⟨true, 2⟩, ⟨true, 3⟩] = .conn ⟨5⟩ ∧
      serialAttempts
        (fun a => if a.id = 2 then .ok ⟨5⟩ else .error (.base a.id))
        [⟨true, 1⟩, ⟨true, 2⟩, ⟨true, 3⟩] = [⟨true, 1⟩, ⟨true, 2⟩]) := by
  refine (serialDialContext_strict_order
      (fun a => if a.id = 2 then .ok ⟨5⟩ else .error (.base a.id))
      [⟨true, 1⟩, ⟨true, 2⟩, ⟨true, 3⟩] [⟨true, 1⟩] [⟨true, 3⟩]
      ⟨true, 2⟩ ⟨5⟩).1 rfl ?_ rfl
  intro b hb
  rw [List.mem_singleton] at hb
  exact ⟨.base 1, by rw [hb]; rfl⟩

/-- Claim C2: for every input to the three racing entry points,
`ErrorNoIpAddress` is returned if and only if the candidate address list
is empty at the point of racing (for the dual-stack racer: both family
groups empty, which coincides with the whole list being empty). -/
theorem noIpAddress_iff_empty (dial : Addr → Except Err ConnT)
    (ips : List Addr) (arrivals : List (Except Err ConnT))
    (events : List DEvent) :
    (serialDialContext dial ips = .err .noIpAddress ↔ ips = []) ∧
    (parallelDialContext ips arrivals = .err .noIpAddress ↔ ips = []) ∧
    (dualStackDialContext ips events = .err .noIpAddress ↔ ips = []) := by
  refine ⟨⟨?_, ?_⟩, ⟨?_, ?_⟩, ⟨?_, ?_⟩⟩
  · intro h
    by_contra hne
    have h1 : ips.isEmpty = false := by simpa using hne
    rw [serialDialContext, h1] at h
    exact serialGo_ne_noIp dial ips [] h
  · rintro rfl
    rfl
  · intro h
    by_contra hne
    have h1 : ips.isEmpty = false := by simpa using hne
    rw [parallelDialContext, h1] at h
    exact parallelLoop_ne_noIp _ [] h
  · rintro rfl
    rfl
  · intro h
    by_contra hne
    have h1 : ((sortationAddr ips).1.isEmpty && (sortationAddr ips).2.isEmpty)
        = false := by
      rcases Bool.eq_false_or_eq_true
          ((sortationAddr ips).1.isEmpty && (sortationAddr ips).2.isEmpty) with
        ht | hf
      · exact absurd ((sortationAddr_both_empty_iff ips).mp ht) hne
      · exact hf
    rw [dualStackDialContext, h1] at h
    exact dualLoop_ne_noIp events none [] h
  · rintro rfl
    rfl

/-- Claim C8: for every nonempty address list (with each launched attempt
eventually delivering exactly one result, so the completion sequence has
one entry per address), `parallelDialContext` returns either a connection
or a joined error built from at least one collected attempt error; the
defensive `os.ErrDeadlineExceeded` branch is unreachable. -/
theorem parallelDialContext_no_deadline (ips : List Addr)
    (arrivals : List (Except Err ConnT)) :
    ips ≠ [] → arrivals.length = ips.length →
    ((∃ c, parallelDialContext ips arrivals = .conn c) ∨
      (∃ es, es ≠ [] ∧ parallelDialContext ips arrivals = .err (.joined es))) ∧
    parallelDialContext ips arrivals ≠ .err .deadlineExceeded := by
  intro hne hlen
  have hipse : ips.isEmpty = false := by simpa using hne
  have htake : arrivals.take ips.length ≠ [] := by
    intro h
    have := congrArg List.length h
    rw [List.length_take, hlen, min_self] at this
    exact hne (List.length_eq_zero.mp this)
  have hchar := parallelLoop_char (arrivals.take ips.length) [] (Or.inl htake)
  have hunfold : parallelDialContext ips arrivals =
      parallelLoop (arrivals.take ips.length) [] := by
    rw [parallelDialContext, hipse]
    rfl
  rw [← hunfold] at hchar
  refine ⟨hchar, ?_⟩
  rcases hchar with ⟨c, hc⟩ | ⟨es, _, hes⟩
  · intro h
    rw [hc] at h
    exact Outcome.noConfusion h
  · intro h
    rw [hes] at h
    exact Err.noConfusion (Outcome.err.inj h)

/-- Witness for C8 at a concrete input: one address whose attempt fails;
the result is the joined singleton error, not `os.ErrDeadlineExceeded`. -/
theorem parallelDialContext_no_deadline_witness :
    parallelDialContext [⟨true, 0⟩] [Except.error (.base 1)] ≠
      .err .deadlineExceeded :=
  (parallelDialContext_no_deadline [⟨true, 0⟩] [Except.error (.base 1)]
    (by decide) rfl).2

/-- Claim C3: when every family task of the dual-family racer has
finished without a primary success (the result channel was drained and
closed with no primary-success result among the observed events),
`dualStackDialContext` returns a held fallback connection if some
fallback success was stored, and otherwise the joined error of all
accumulated attempt errors. -/
theorem dualStackDialContext_exhausted (ips : List Addr)
    (events : List DEvent) :
    ips ≠ [] → hasPrimSuccess events = false →
    (hasFbSuccess events = true →
      ∃ c, dualStackDialContext ips events = .conn c ∧
        DEvent.result (.ok c) false ∈ events) ∧
    (hasFbSuccess events = false →
      dualStackDialContext ips events =
        .err (.joined ((primErrs events).reverse ++ fbErrs events))) := by
  intro hne hp
  rw [dualStackDialContext_eq_loop ips events hne]
  constructor
  · intro hf
    obtain ⟨c, hc, hm⟩ := dualLoop_fbWins events none [] hp (Or.inl hf)
    rcases hm with hm | hm
    · exact ⟨c, hc, hm⟩
    · exact absurd hm (by simp)
  · intro hf
    simpa using dualLoop_noSuccess events [] hp hf

/-- Witness for C3 at a concrete input: a single fallback success and no
primary success; the held fallback connection is returned. -/
theorem dualStackDialContext_exhausted_witness :
    ∃ c, dualStackDialContext [⟨true, 0⟩]
        [DEvent.result (.ok ⟨2⟩) false] = .conn c ∧
      DEvent.result (.ok c) false ∈ [DEvent.result (.ok ⟨2⟩) false] :=
  (dualStackDialContext_exhausted [⟨true, 0⟩] [DEvent.result (.ok ⟨2⟩) false]
    (by decide) rfl).1 rfl

/-- Claim C4: primacy marking of the dual-family racer. When the policy
expresses no family preference (`prefer` is neither 4 nor 6) both family
tasks are launched primary; when it prefers 4 (resp. 6) exactly the IPv4
(resp. IPv6) task is primary. A primary success is returned immediately
by the coordinating loop; a fallback success is held (the loop continues
with the connection stored) rather than returned. -/
theorem dualStack_primacy (preferIPVersion : Int) :
    ((preferIPVersion ≠ 4 ∧ preferIPVersion ≠ 6) →
      isPrimaryV4 preferIPVersion = true ∧ isPrimaryV6 preferIPVersion = true) ∧
    (preferIPVersion = 4 →
      isPrimaryV4 preferIPVersion = true ∧ isPrimaryV6 preferIPVersion = false) ∧
    (preferIPVersion = 6 →
      isPrimaryV4 preferIPVersion = false ∧ isPrimaryV6 preferIPVersion = true) ∧
    (∀ (c : ConnT) (rest : List DEvent) (fb : Option ConnT) (errs : List Err),
      dualLoop (.result (.ok c) true :: rest) fb errs = .conn c) ∧
    (∀ (c : ConnT) (rest : List DEvent) (fb : Option ConnT) (errs : List Err),
      dualLoop (.result (.ok c) false :: rest) fb errs =
        dualLoop rest (some c) errs) := by
  refine ⟨?_, ?_, ?_, ?_, ?_⟩
  · rintro ⟨h4, h6⟩
    constructor
    · simp [isPrimaryV4, bne_iff_ne, h6]
    · simp [isPrimaryV6, bne_iff_ne, h4]
  · rintro rfl
    exact ⟨by decide, by decide⟩
  · rintro rfl
    exact ⟨by decide, by decide⟩
  · intro c rest fb errs
    rfl
  · intro c rest fb errs
    rfl

/-- Witness for C4 at a concrete input: with preference 6 the IPv4 task is
fallback and the IPv6 task primary, and a fallback success is held by the
loop rather than returned. -/
theorem dualStack_primacy_witness :
    isPrimaryV4 6 = false ∧ isPrimaryV6 6 = true ∧
      dualLoop [DEvent.result (.ok ⟨3⟩) false] none [] =
        dualLoop [] (some ⟨3⟩) [] := by
  have h := dualStack_primacy 6
  exact ⟨(h.2.2.1 rfl).1, (h.2.2.1 rfl).2, h.2.2.2.2 ⟨3⟩ [] none []⟩

/-- Claim C5: when the dual-family racer produces no connection (no
success among the observed events), the joined error it returns is
exactly the primary-group errors (in reverse arrival order, as each is
prepended) followed by the fallback-group errors (in arrival order, as
each is appended): every primary-group error is placed ahead of every
fallback-group error. -/
theorem dualStackDialContext_error_order (ips : List Addr)
    (events : List DEvent) :
    ips ≠ [] → hasPrimSuccess events = false → hasFbSuccess events = false →
    dualStackDialContext ips events =
      .err (.joined ((primErrs events).reverse ++ fbErrs events)) := by
  intro hne hp hf
  rw [dualStackDialContext_eq_loop ips events hne]
  simpa using dualLoop_noSuccess events [] hp hf

/-- Witness for C5 at a concrete input: a fallback error arriving before a
primary error; the primary error nevertheless comes first in the joined
error. -/
theorem dualStackDialContext_error_order_witness :
    dualStackDialContext [⟨true, 0⟩]
        [DEvent.result (.error (.base 1)) false,
          DEvent.result (.error (.base 2)) true] =
      .err (.joined [.connectFailed (.base 2), .connectFailed (.base 1)]) :=
  dualStackDialContext_error_order [⟨true, 0⟩]
    [DEvent.result (.error (.base 1)) false,
      DEvent.result (.error (.base 2)) true] (by decide) rfl rfl

/-- Counterexample to C6 as stated: with the unrecognized token `"foo"`
and no forced single-stack family, when address resolution fails
`DialContext` returns the resolution error — not
`ErrorInvalidedNetworkStack` — because `parseAddr` runs before the
dispatch switch. The outcome therefore does depend on address
resolution. -/
theorem dialContext_invalid_token_counterexample :
    DialContext
        { parse := fun _ => .error (.base 5)
          single := fun _ _ _ => .err (.base 9)
          dual := fun _ _ _ => .err (.base 9) } "foo" 0 =
      .err (.base 5) ∧
    Err.base 5 ≠ .invalidNetworkStack := by
  refine ⟨rfl, ?_⟩
  intro h
  exact Err.noConfusion h

/-- Claim C6 (amended): for every network token outside
{tcp, tcp4, tcp6, udp, udp4, udp6} and no forced single-stack family,
`DialContext` fails with `ErrorInvalidedNetworkStack` provided address
parsing and resolution succeed; when `parseAddr` fails, its error is
returned instead. -/
theorem dialContext_invalid_token (env : DialEnv) (network : String)
    (optNetwork : Int) (ips : List Addr) (port : String) :
    optNetwork ≠ 4 → optNetwork ≠ 6 →
    network ∉ (["tcp", "tcp4", "tcp6", "udp", "udp4", "udp6"] : List String) →
    env.parse network = .ok (ips, port) →
    DialContext env network optNetwork = .err .invalidNetworkStack := by
  intro h4 h6 hmem hparse
  have hnw : dialNetworkToken network optNetwork = network := by
    rw [dialNetworkToken, if_neg]
    intro h
    exact h.elim h4 h6
  simp only [List.mem_cons, List.not_mem_nil, or_false, not_or] at hmem
  obtain ⟨m1, m2, m3, m4, m5, m6⟩ := hmem
  have hbr : dispatchBranch network = .invalid := by
    rw [dispatchBranch, if_neg, if_neg]
    · rintro (h | h)
      · exact m1 h
      · exact m4 h
    · rintro (h | h | h | h)
      · exact m2 h
      · exact m3 h
      · exact m5 h
      · exact m6 h
  simp [DialContext, hnw, hparse, hbr]

/-- Witness for the amended C6 at a concrete input: token `"foo"`, no
forced family, resolution succeeding; the result is
`ErrorInvalidedNetworkStack`. -/
theorem dialContext_invalid_token_witness :
    DialContext
        { parse := fun _ => .ok ([], "80")
          single := fun _ _ _ => .err (.base 9)
          dual := fun _ _ _ => .err (.base 9) } "foo" 0 =
      .err .invalidNetworkStack :=
  dialContext_invalid_token _ "foo" 0 [] "80" (by decide) (by decide)
    (by decide) rfl

/-- Counterexample to C7 as stated: the token `"foo4"` ends in `"4"`, yet
`parseAddr` selects the default both-families mode for it, because the
mode switch matches the exact tokens `"tcp4"`/`"udp4"`/`"tcp6"`/`"udp6"`,
not suffixes. -/
theorem parseAddrMode_suffix_counterexample :
    endsInChar "foo4" (Char.ofNat 52) = true ∧
      parseAddrMode "foo4" = .both ∧ ResolveMode.both ≠ .v4 := by
  refine ⟨by decide, rfl, by decide⟩

/-- Claim C7 (amended): the resolution mode is keyed on the exact token,
not the suffix: `tcp4`/`udp4` restrict to IPv4-only, `tcp6`/`udp6` to
IPv6-only, and every other token — including unrecognized tokens ending
in "4" or "6" — resolves both families. Within the six-token valid set
the suffix does determine the mode. -/
theorem parseAddrMode_tokens (network : String) :
    (network ∈ (["tcp", "tcp4", "tcp6", "udp", "udp4", "udp6"] : List String) →
      (endsInChar network (Char.ofNat 52) = true → parseAddrMode network = .v4) ∧
      (endsInChar network (Char.ofNat 54) = true → parseAddrMode network = .v6) ∧
      (endsInChar network (Char.ofNat 52) = false →
        endsInChar network (Char.ofNat 54) = false →
        parseAddrMode network = .both)) ∧
    (network ≠ "tcp4" → network ≠ "udp4" → network ≠ "tcp6" → network ≠ "udp6" →
      parseAddrMode network = .both) := by
  constructor
  · intro hmem
    simp only [List.mem_cons, List.not_mem_nil, or_false] at hmem
    rcases hmem with rfl | rfl | rfl | rfl | rfl | rfl <;>
      exact ⟨by decide, by decide, by decide⟩
  · intro h1 h2 h3 h4
    rw [parseAddrMode, if_neg, if_neg]
    · rintro (h | h)
      · exact h3 h
      · exact h4 h
    · rintro (h | h)
      · exact h1 h
      · exact h2 h

/-- Witness for the amended C7 at a concrete input: the valid token
`"udp6"` ends in "6" and selects IPv6-only resolution. -/
theorem parseAddrMode_tokens_witness : parseAddrMode "udp6" = .v6 :=
  ((parseAddrMode_tokens "udp6").1 (by decide)).2.1 (by decide)

/-- Claim C9: applying the bulk `WithOption o` option inside
`applyOptions` replaces the whole policy bundle with `o`: the result is
the fold of only the options after it over `o`, independently of the
seeded default interface and routing mark, of the process-wide default
options and of every option applied before it. -/
theorem withOption_replaces_bundle (defaultInterface : String)
    (defaultRoutingMark : Int) (DefaultOptions pre suf : List DialOption)
    (o : option) :
    applyOptions defaultInterface defaultRoutingMark DefaultOptions
        (pre ++ WithOption o :: suf) =
      suf.foldl (fun s f => f s) o := by
  simp [applyOptions, List.foldl_append, WithOption]

/-- Claim C10: when the policy forces a single-stack family (4 or 6),
`DialContext` rewrites every network token — valid or not — into a
well-formed one (tokens containing "tcp" become `tcpN`, every other token
becomes `udpN`), so the rewritten token is always one of the four
single-stack tokens, the dispatch switch always takes the single-stack
branch and its `ErrorInvalidedNetworkStack` branch is unreachable. -/
theorem forcedSingleStack_wellFormed (network : String) (n : Int) :
    n = 4 ∨ n = 6 →
    (strContains network "tcp" = true →
      dialNetworkToken network n = "tcp" ++ toString n) ∧
    (strContains network "tcp" = false →
      dialNetworkToken network n = "udp" ++ toString n) ∧
    dialNetworkToken network n ∈
      (["tcp4", "tcp6", "udp4", "udp6"] : List String) ∧
    dispatchBranch (dialNetworkToken network n) = .single := by
  intro hn
  have hg : dialNetworkToken network n = rewriteNetwork network n := by
    rw [dialNetworkToken, if_pos hn]
  rcases hn with rfl | rfl <;> cases hc : strContains network "tcp" <;>
    simp [hg, rewriteNetwork, hc] <;> decide

/-- Witness for C10 at a concrete input: the invalid token `"xyz"` under
forced IPv4 becomes `"udp4"` and dispatches to the single-stack branch. -/
theorem forcedSingleStack_wellFormed_witness :
    dialNetworkToken "xyz" 4 = "udp" ++ toString (4 : Int) ∧
      dispatchBranch (dialNetworkToken "xyz" 4) = .single := by
  have h := forcedSingleStack_wellFormed "xyz" 4 (Or.inl rfl)
  exact ⟨h.2.1 (by decide), h.2.2.2⟩

end Dialer
